import Mathlib

/-!
Shallow embedding of `asyncio-simple-http-server` (files
`asyncio_simple_http_server/http_util.py` and `asyncio_simple_http_server/server.py`)
for checking the natural-language specification against the code.

Modelling conventions:
* Python byte strings and text strings are both modelled as Lean `String`
  (all inputs relevant to the claims are ASCII, where `bytes.decode()` is the
  identity on the character level).
* A Python `dict` is modelled as an association list `List (String × α)` whose
  keys are unique by construction; `d[k] = v` replaces the first matching entry
  in place (keeping its position, as an insertion-ordered `dict` does) and
  appends a fresh entry at the end otherwise, and `d.setdefault(k, []).extend(vs)`
  extends the first matching entry in place or appends `(k, vs)` at the end.
* Exceptions are modelled with `Except PyError` / `Except PyExn`.
* The event loop, sockets and real time are not modelled: `asyncio.StreamReader`
  becomes an explicit remaining-input list of characters, `wait_for` timeouts are
  dropped (no claim below is about elapsed time), and `monotonic()` stamps are 0.
* `os.stat(path).st_size` and reading a file are modelled by explicit
  environment parameters `fileSize : String → Nat` / `fileContents : String → String`.
-/

namespace SimpleHttp

/-! ## Python string helpers -/

/-- Python `str.lower()` (ASCII range; header names in the claims are ASCII). -/
def lowerStr (s : String) : String := ⟨s.data.map Char.toLower⟩

/-- The whitespace class of Python `str.strip()` / `str.split()` (ASCII part). -/
def isPyWs (c : Char) : Bool :=
  c = ' ' || c = '\t' || c = '\n' || c = '\r' || c = '\x0b' || c = '\x0c'

/-- Python `str.strip()`. -/
def pyStrip (s : String) : String :=
  ⟨((s.data.dropWhile isPyWs).reverse.dropWhile isPyWs).reverse⟩

/-- Accumulator loop for `pySplitWs`: `cur` holds the current word reversed. -/
def pySplitWsAux (cur : List Char) : List Char → List String
  | [] => if cur = [] then [] else [⟨cur.reverse⟩]
  | c :: rest =>
    if isPyWs c then
      if cur = [] then pySplitWsAux [] rest
      else ⟨cur.reverse⟩ :: pySplitWsAux [] rest
    else pySplitWsAux (c :: cur) rest

/-- Python `str.split()` with no argument: split on whitespace runs, dropping
empty pieces. -/
def pySplitWs (s : String) : List String :=
  pySplitWsAux [] s.data

/-- Split on a separator character, keeping empty pieces — Python
`str.split(sep)` with an explicit separator. -/
def splitChar (sep : Char) : List Char → List (List Char)
  | [] => [[]]
  | c :: rest =>
    if c = sep then [] :: splitChar sep rest
    else
      match splitChar sep rest with
      | [] => [[c]]
      | g :: gs => (c :: g) :: gs

/-- First index at which `sep` occurs as a contiguous substring of `s`
(Python `str.find` for a nonempty needle). -/
def findSubstr (sep : List Char) : List Char → Option Nat
  | [] => none
  | c :: rest =>
    if sep.isPrefixOf (c :: rest) then some 0
    else (findSubstr sep rest).map (· + 1)

/-- Digit-run parsing of Python `int(str)`: decimal digits with single
underscores allowed only between digits. -/
def pyIntDigits (l : List Char) : Option Nat :=
  if l.isEmpty then none
  else if l.head? = some '_' || l.getLast? = some '_' then none
  else if (findSubstr ['_', '_'] l).isSome then none
  else
    let ds := l.filter (fun c => c ≠ '_')
    if ds.all Char.isDigit then
      some (ds.foldl (fun n c => n * 10 + (c.toNat - 48)) 0)
    else none

/-- Python `int(str)`: surrounding whitespace stripped, optional sign, decimal
digits (returns `none` where Python raises `ValueError`). -/
def pyInt (s : String) : Option Int :=
  match (pyStrip s).data with
  | '+' :: rest => (pyIntDigits rest).map Int.ofNat
  | '-' :: rest => (pyIntDigits rest).map (fun n => -(n : Int))
  | t => (pyIntDigits t).map Int.ofNat

/-! ## Python `dict` association-list helpers -/

/-- `d.get(k)` on a Python dict: value of the first (in a well-formed dict,
only) entry with this key. -/
def dictGet {α : Type} (k : String) : List (String × α) → Option α
  | [] => none
  | (k', v) :: rest => if k' = k then some v else dictGet k rest

/-- Whether `k in d`. -/
def dictContains {α : Type} (k : String) : List (String × α) → Bool
  | [] => false
  | (k', _) :: rest => k' = k || dictContains k rest

/-- `d[k] = v`: replace the first entry with key `k` in place, else append. -/
def dictSet {α : Type} (k : String) (v : α) : List (String × α) → List (String × α)
  | [] => [(k, v)]
  | (k', v') :: rest =>
    if k' = k then (k', v) :: rest else (k', v') :: dictSet k v rest

/-- `d.setdefault(k, []).extend(vs)`: extend the first entry with key `k` in
place, else append a fresh entry. -/
def dictExtend (k : String) (vs : List String) :
    List (String × List String) → List (String × List String)
  | [] => [(k, vs)]
  | (k', v') :: rest =>
    if k' = k then (k', v' ++ vs) :: rest else (k', v') :: dictExtend k vs rest

/-! ## `HttpHeaders` (http_util.py lines 29-75) -/

/-- Source `class HttpHeaders`: `self._headers` is a dict from header-name string to
list of values. Values are stored as strings (ints such as a content length are
stored formatted, which is how they reach the wire). -/
structure HttpHeaders where
  _headers : List (String × List String)
deriving Repr, DecidableEq

namespace HttpHeaders

/-- A fresh `HttpHeaders()`. -/
def empty : HttpHeaders := ⟨[]⟩

/-- Method `set(key, value)`: `self._headers[key.lower()] = [value]`. -/
def set (h : HttpHeaders) (key value : String) : HttpHeaders :=
  ⟨dictSet (lowerStr key) [value] h._headers⟩

/-- Method `add(key, value)`: `self._headers.setdefault(key.lower(), []).append(value)`. -/
def add (h : HttpHeaders) (key value : String) : HttpHeaders :=
  ⟨dictExtend (lowerStr key) [value] h._headers⟩

/-- Method `get_list(key)`: `self._headers.get(key.lower())`. -/
def get_list (h : HttpHeaders) (key : String) : Option (List String) :=
  dictGet (lowerStr key) h._headers

/-- Method `get(key)` with the default transform and default `None`:
`v[0] if v else default` (an empty value list is falsy). -/
def get (h : HttpHeaders) (key : String) : Option String :=
  match h.get_list key with
  | some (v :: _) => some v
  | _ => none

/-- Method `merge(other)` for `isinstance(other, HttpHeaders)`:
`self._headers.setdefault(k, []).extend(l)` for each entry of `other._headers`
in order. Note that the keys of `other` are inserted verbatim (not lowered). -/
def merge (h other : HttpHeaders) : HttpHeaders :=
  ⟨other._headers.foldl (fun m kl => dictExtend kl.1 kl.2 m) h._headers⟩

/-- Method `merge(other)` for a plain mapping. A scalar value `v` is appended and a
list value is extended, so a scalar behaves exactly like the one-element list
`[v]`; the mapping is therefore modelled as `List (String × List String)`.
Note that the keys of `other` are inserted verbatim — this branch of the source
does NOT lower-case them. -/
def mergeDict (h : HttpHeaders) (other : List (String × List String)) : HttpHeaders :=
  ⟨other.foldl (fun m kv => dictExtend kv.1 kv.2 m) h._headers⟩

/-- Method `items()`: one `(key, value)` pair per stored value, in storage order. -/
def items (h : HttpHeaders) : List (String × String) :=
  (h._headers.map (fun kl => kl.2.map (fun v => (kl.1, v)))).flatten

/-- Method `__len__`: total number of stored values. -/
def len (h : HttpHeaders) : Nat :=
  (h._headers.map (fun kl => kl.2.length)).sum

end HttpHeaders

/-! ## Requests and responses (http_util.py lines 78-94) -/

/-- Source `@dataclass class HttpRequest`. The `monotonic()` arrival stamp is real
time, outside the embedding; it is fixed to `0` (no claim depends on it). -/
structure HttpRequest where
  stamp : Nat
  method : String
  path : String
  query_params : List (String × List String)
  version : String
  headers : HttpHeaders
  body : Option String := none
deriving Repr, DecidableEq

/-- Source `@dataclass class HttpResponse`. -/
structure HttpResponse where
  status_code : Nat
  headers : Option HttpHeaders := none
  body : Option String := none
  file_path : Option String := none
deriving Repr, DecidableEq

/-- Exceptions raised by the parsing/serialization layer and the Python
runtime. -/
inductive PyError where
  /-- `asyncio.IncompleteReadError`: end of stream before the separator
  (`readuntil`) or before `n` bytes (`readexactly`). -/
  | incompleteReadError
  /-- e.g. fewer than 3 words in the request line (`words[2]`). -/
  | indexError
  /-- e.g. `int()` on a non-numeric string, or unpacking a header line
  without `': '`. -/
  | valueError
  /-- e.g. `len(None)` or `json.loads(None)`. -/
  | typeError
deriving Repr, DecidableEq

/-! ## Stream reading

`asyncio.StreamReader.readuntil(sep)` returns data up to and including the
separator; if the stream ends before the separator is seen it raises
`IncompleteReadError` (with the partial data, possibly empty) — it never
returns a string without the separator, in particular never an empty one.
`readexactly(n)` raises `IncompleteReadError` if fewer than `n` bytes remain.
The reader is modelled as the list of characters not yet consumed. -/

/-- Model of `await reader.readuntil(b'\r\n')` (the `wait_for` timeout is not
modelled). -/
def readuntilCRLF (s : List Char) : Except PyError (List Char × List Char) :=
  match findSubstr ['\r', '\n'] s with
  | some i => .ok (s.take (i + 2), s.drop (i + 2))
  | none => .error .incompleteReadError

/-- Model of `await reader.readexactly(n)`. -/
def readexactly (n : Nat) (s : List Char) : Except PyError (List Char × List Char) :=
  if n ≤ s.length then .ok (s.take n, s.drop n) else .error .incompleteReadError

/-! ## Query-string parsing (`urllib.parse.parse_qs` with default arguments)

CPython defaults: split the string on `'&'`; skip empty fragments; skip
fragments without `'='`; skip fragments with an empty value; decode `'+'` as
space and `%XX` percent-escapes in both name and value; accumulate repeated
names into a list in order. -/

/-- Hexadecimal digit value. -/
def hexVal? (c : Char) : Option Nat :=
  if '0' ≤ c ∧ c ≤ '9' then some (c.toNat - 48)
  else if 'a' ≤ c ∧ c ≤ 'f' then some (c.toNat - 87)
  else if 'A' ≤ c ∧ c ≤ 'F' then some (c.toNat - 55)
  else none

/-- Function `urllib.parse.unquote`: decode `%XX` escapes, leaving invalid escapes
untouched. -/
def unquote : List Char → List Char
  | [] => []
  | '%' :: a :: b :: rest =>
    match hexVal? a, hexVal? b with
    | some ha, some hb => Char.ofNat (ha * 16 + hb) :: unquote rest
    | _, _ => '%' :: unquote (a :: b :: rest)
  | c :: rest => c :: unquote rest

/-- Decode `'+'` to space, then percent-decode. -/
def unquotePlus (l : List Char) : String :=
  ⟨unquote (l.map (fun c => if c = '+' then ' ' else c))⟩

/-- One `name=value` fragment of the query string, or `none` if it is skipped. -/
def qsPair (seg : List Char) : Option (String × String) :=
  if seg.isEmpty then none
  else
    match seg.findIdx? (fun c => c = '=') with
    | none => none
    | some i =>
      let name := seg.take i
      let value := seg.drop (i + 1)
      if value.isEmpty then none
      else some (unquotePlus name, unquotePlus value)

/-- Function `urllib.parse.parse_qs(qs)`. -/
def parse_qs (qs : String) : List (String × List String) :=
  ((splitChar '&' qs.data).filterMap qsPair).foldl
    (fun m kv => dictExtend kv.1 [kv.2] m) []

/-! ## Path handling (http_util.py lines 97-110) -/

/-- Function `_clean_path`: collapse a leading `//` to a single `/`. -/
def _clean_path (path : String) : String :=
  match path.data with
  | '/' :: '/' :: _ => ⟨'/' :: path.data.dropWhile (fun c => c = '/')⟩
  | _ => path

/-- Function `_parse_path`: split off the query string at the first `'?'`. -/
def _parse_path (path : String) : String × List (String × List String) :=
  match path.data.findIdx? (fun c => c = '?') with
  | none => (path, [])
  | some i => (⟨path.data.take i⟩, parse_qs ⟨path.data.drop (i + 1)⟩)

/-! ## Request parsing (http_util.py lines 112-142, `http_parser`) -/

/-- Python `int(value)` as an expression that may raise `ValueError`. -/
def pyIntExcept (v : String) : Except PyError Int :=
  match pyInt v with
  | some n => .ok n
  | none => .error .valueError

/-- Step `headers.get('content-length', -1, int)`: absent or empty-valued header
gives the default `-1`; otherwise `int(value)`, which raises `ValueError` on a
non-numeric string. -/
def getContentLength (h : HttpHeaders) : Except PyError Int :=
  match h.get_list "content-length" with
  | some (v :: _) => pyIntExcept v
  | _ => .ok (-1)

/-- The header-reading loop of `http_parser`: read `CRLF`-terminated lines
until an empty line; split each on the first `': '` (raising `ValueError`
when there is none), strip both parts, `add` to the table. The `fuel`
argument only bounds the recursion; each iteration consumes at least two
characters, so `fuel = s.length` never runs out. -/
def parseHeaderLoop : Nat → HttpHeaders → List Char → Except PyError (HttpHeaders × List Char)
  | 0, _, _ => .error .incompleteReadError
  | fuel + 1, acc, s =>
    match readuntilCRLF s with
    | .error e => .error e
    | .ok (line, rest) =>
      if line = [] ∨ line = ['\r', '\n'] then .ok (acc, rest)
      else
        match findSubstr [':', ' '] line with
        | none => .error .valueError
        | some i =>
          let key := pyStrip ⟨line.take i⟩
          let value := pyStrip ⟨line.drop (i + 2)⟩
          parseHeaderLoop fuel (acc.add key value) rest

/-- Reading the body for a known `content-length` value `n`: a positive `n`
reads exactly that many bytes, anything else leaves the body `None`. -/
def readBodyLen (n : Int) (s : List Char) :
    Except PyError (Option String × List Char) :=
  if 0 < n then
    match readexactly n.toNat s with
    | .ok (b, rest) => .ok (some ⟨b⟩, rest)
    | .error e => .error e
  else .ok (none, s)

/-- The body step of `http_parser` (lines 132-137). -/
def readBody (headers : HttpHeaders) (s : List Char) :
    Except PyError (Option String × List Char) :=
  match getContentLength headers with
  | .error e => .error e
  | .ok n => readBodyLen n s

/-- Model of the `http_parser` coroutine: returns the parsed request (or `None` — a branch kept from
the source although `readuntil` can never return an empty string) together
with the unconsumed rest of the stream. -/
def http_parse (s : List Char) : Except PyError (Option HttpRequest × List Char) :=
  match readuntilCRLF s with
  | .error e => .error e
  | .ok (line, rest) =>
    if line = [] then .ok (none, rest)
    else
      match pySplitWs ⟨line⟩ with
      | method :: rawPath :: version :: _ =>
        let path₁ := _clean_path rawPath
        let pq := _parse_path path₁
        match parseHeaderLoop rest.length HttpHeaders.empty rest with
        | .error e => .error e
        | .ok (headers, rest₂) =>
          match readBody headers rest₂ with
          | .error e => .error e
          | .ok (body, rest₃) =>
            .ok (some ⟨0, method, pq.1, pq.2, version, headers, body⟩, rest₃)
      | _ => .error .indexError

/-! ## Response serialization (http_util.py lines 145-169, `http_send_response`,
and server.py lines 227-232, `HttpServer._send_response`) -/

/-- The member values of Python's `http.HTTPStatus`; `HTTPStatus(code)` raises
`ValueError` for any other code. -/
def isValidHTTPStatus (code : Nat) : Bool :=
  code ∈ [100, 101, 102, 103,
          200, 201, 202, 203, 204, 205, 206, 207, 208, 226,
          300, 301, 302, 303, 304, 305, 307, 308,
          400, 401, 402, 403, 404, 405, 406, 407, 408, 409, 410, 411, 412,
          413, 414, 415, 416, 417, 418, 421, 422, 423, 424, 425, 426, 428,
          429, 431, 451,
          500, 501, 502, 503, 504, 505, 506, 507, 508, 510, 511]

/-- Python truthiness of `response.body` (`bytes | None`): `None` and `b''`
are falsy. -/
def pyTruthyBody : Option String → Bool
  | none => false
  | some b => !b.data.isEmpty

/-- Python truthiness of `response.file_path` (`str | None`): `None` and `''`
are falsy. -/
def pyTruthyPath : Option String → Bool
  | none => false
  | some p => !p.data.isEmpty

/-- Python truthiness of `response.headers` (`HttpHeaders | None`): `None` is
falsy, and an `HttpHeaders` object is falsy exactly when `__len__` is 0. -/
def pyTruthyHeaders : Option HttpHeaders → Bool
  | none => false
  | some h => h.len != 0

/-- Value `content_length` as computed by `http_send_response` (lines 149-154):
the length of a truthy body, else the `os.stat` size of a truthy file path,
else 0. -/
def responseContentLength (fileSize : String → Nat) (r : HttpResponse) : Nat :=
  if pyTruthyBody r.body then (r.body.getD "").length
  else if pyTruthyPath r.file_path then fileSize (r.file_path.getD "")
  else 0

/-- The payload written after the blank line (lines 163-168): a truthy body,
else the contents of a truthy file path, else nothing. -/
def responsePayload (fileContents : String → String) (r : HttpResponse) : String :=
  if pyTruthyBody r.body then r.body.getD ""
  else if pyTruthyPath r.file_path then fileContents (r.file_path.getD "")
  else ""

/-- What `http_send_response` puts on the wire: status line code, one header
line per stored value (in table order), and the payload. -/
structure WireResponse where
  status_code : Nat
  header_lines : List (String × String)
  payload : String
deriving Repr, DecidableEq

/-- The part of `http_send_response` that runs on a given headers table `h`
(after the `response.headers if response.headers else HttpHeaders()` choice):
`HTTPStatus(status_code)` first (raising `ValueError` on an unknown code,
before anything is written or mutated), then `h.set('content-length', n)` —
which mutates `h`, so the mutated table is returned — then the wire data. -/
def emitResponse (fileSize : String → Nat) (fileContents : String → String)
    (h : HttpHeaders) (r : HttpResponse) : HttpHeaders × Except PyError WireResponse :=
  if isValidHTTPStatus r.status_code then
    let h' := h.set "content-length" (toString (responseContentLength fileSize r))
    (h', .ok ⟨r.status_code, h'.items, responsePayload fileContents r⟩)
  else (h, .error .valueError)

/-- Model of `HttpServer._send_response` followed by `http_send_response`, as one
request-response sending cycle. The state it returns is the server-wide
defaults table `self._default_response_headers` after the cycle:

* a truthy `response.headers` is merged with the defaults (mutating the
  response's own table, a distinct object) and used for the wire — the
  defaults are returned unchanged;
* otherwise `response.headers = self._default_response_headers` makes the
  response's table an alias of the defaults, and `http_send_response` then
  either keeps that alias (defaults truthy, so the later
  `set('content-length', …)` mutates the defaults) or, when the aliased
  defaults table is empty hence falsy, swaps in a fresh `HttpHeaders()`
  (defaults untouched). -/
def send_response_cycle (fileSize : String → Nat) (fileContents : String → String)
    (defaults : HttpHeaders) (response : HttpResponse) :
    HttpHeaders × Except PyError WireResponse :=
  if pyTruthyHeaders response.headers then
    let rh := (response.headers.getD HttpHeaders.empty).merge defaults
    let h := if rh.len ≠ 0 then rh else HttpHeaders.empty
    (defaults, (emitResponse fileSize fileContents h response).2)
  else
    if defaults.len ≠ 0 then
      emitResponse fileSize fileContents defaults response
    else
      (defaults, (emitResponse fileSize fileContents HttpHeaders.empty response).2)

/-- The header lines of a completed sending cycle (empty when the cycle raised
before writing). -/
def wireHeaderLines : Except PyError WireResponse → List (String × String)
  | .ok w => w.header_lines
  | .error _ => []

/-- The values carried by the header lines named `k`, in wire order. -/
def valuesAt (k : String) (lines : List (String × String)) : List String :=
  (lines.filter (fun kv => kv.1 = k)).map (fun kv => kv.2)

/-! ## Variable-route templates (server.py lines 85-105,
`_uri_variable_to_pattern`)

A template such as `/aaa/{bbb}/ccc` is compiled by the source to
the anchored regex `^/aaa/(?P<bbb>[^/]*)/ccc$`. The compiled pattern is
modelled as its list of segments: the literal chunks between placeholders and
one capturing `[^/]*` group per placeholder. Literal chunks are inserted into
the regex verbatim by the source, so this model is exact for templates whose
literal chunks contain no regex metacharacters (all templates in the spec and
the demo). -/

def lbrace : Char := Char.ofNat 123
def rbrace : Char := Char.ofNat 125

/-- One segment of a compiled variable-route pattern. -/
inductive TSeg where
  | lit (s : String)
  | var (name : String)
deriving Repr, DecidableEq

/-- The variable name of a segment, if it is one. -/
def TSeg.varName? : TSeg → Option String
  | .lit _ => none
  | .var n => some n

/-- Segment scan of `re.finditer` over the template with the lazy
placeholder regex: the leftmost opening brace with some closing brace after it
opens a placeholder whose name runs to the first such closing brace; text with
no (closed) placeholder is literal. `fuel` only bounds the recursion; every
step consumes at least two characters, so `fuel = s.length` never runs out. -/
def parseTSegsF : Nat → List Char → List TSeg
  | 0, s => if s = [] then [] else [.lit ⟨s⟩]
  | fuel + 1, s =>
    match s.findIdx? (fun c => c = lbrace) with
    | none => if s = [] then [] else [.lit ⟨s⟩]
    | some i =>
      let after := s.drop (i + 1)
      match after.findIdx? (fun c => c = rbrace) with
      | none => if s = [] then [] else [.lit ⟨s⟩]
      | some j =>
        (if i = 0 then [] else [.lit ⟨s.take i⟩]) ++
          .var ⟨after.take j⟩ :: parseTSegsF fuel (after.drop (j + 1))

/-- Compiled segments of a template string. -/
def parseTSegs (s : List Char) : List TSeg := parseTSegsF s.length s

/-- Function `_uri_variable_to_pattern(uri)`: the ordered list of placeholder names and
the compiled (anchored) pattern. -/
def _uri_variable_to_pattern (uri : String) : List String × List TSeg :=
  ((parseTSegs uri.data).filterMap TSeg.varName?, parseTSegs uri.data)

/-- Backtracking search for one `[^/]*` group followed by the rest of the
pattern (matched by `f`), trying capture length `k` first and then shorter
ones — the greedy, backtracking semantics of Python's `re`. -/
def tryLens (f : List Char → Option (List String)) (s : List Char) :
    Nat → Option (List String)
  | 0 => (f s).map (fun cs => ("" : String) :: cs)
  | k + 1 =>
    match f (s.drop (k + 1)) with
    | some cs => some ((⟨s.take (k + 1)⟩ : String) :: cs)
    | none => tryLens f s k

/-- Full anchored match of a compiled pattern against a path, returning the
captured group substrings in group order. `fuel` only bounds the recursion
depth in the segment list; `fuel = segs.length + 1` never runs out. -/
def tmatchF : Nat → List TSeg → List Char → Option (List String)
  | 0, _, _ => none
  | _ + 1, [], s => if s = [] then some [] else none
  | fuel + 1, .lit l :: rest, s =>
    if l.data.isPrefixOf s then tmatchF fuel rest (s.drop l.data.length) else none
  | fuel + 1, .var _ :: rest, s =>
    tryLens (tmatchF fuel rest) s (s.takeWhile (fun c => c ≠ '/')).length

/-- Model of `pattern.match(path)` / the single anchored match of `re.findall`. -/
def tmatch (segs : List TSeg) (s : List Char) : Option (List String) :=
  tmatchF (segs.length + 1) segs s

/-- Model of `re.findall(pattern, path)` for an anchored pattern: at most one match,
given as its tuple of group captures. -/
def findallTemplate (segs : List TSeg) (path : String) : List (List String) :=
  match tmatch segs path.data with
  | some caps => [caps]
  | none => []

/-! ## Routes (server.py lines 32-59) -/

/-- The `path` field of a `UriRoute`: a plain string (`uri_mapping`), a
pattern compiled from a placeholder template (`uri_variable_mapping`), or an
arbitrary user regex (`uri_pattern_mapping`) — the latter abstracted as the
set of paths it matches. -/
inductive RoutePath where
  | static (p : String)
  | template (segs : List TSeg)
  | regexAbs (accepts : String → Bool)

/-- Source `@dataclass class UriRoute`. `http_method` is `str | list[str]`; the
`http_methods()` generator yields a lone string whole, so both forms are one
list of method names. `call_args` is the handler's declared parameter list
captured by `getfullargspec` at registration. -/
structure UriRoute where
  path : RoutePath
  http_method : List String
  uri_variables : Option (List String)
  call_args : List String

/-- Method `UriRoute.is_static`: whether `path` is not a compiled pattern. -/
def UriRoute.is_static (r : UriRoute) : Bool :=
  match r.path with
  | .static _ => true
  | _ => false

/-- Method `UriRoute.match`: the method must be one of the route's methods, then a
static path compares by string equality and a pattern path by
`pattern.match(path) is not None`. -/
def UriRoute.match' (r : UriRoute) (http_method path : String) : Bool :=
  if r.http_method.contains http_method then
    match r.path with
    | .static p => path == p
    | .template segs => (tmatch segs path.data).isSome
    | .regexAbs accepts => accepts path
  else false

/-! ## Parameter binding (server.py lines 62-82, `_convert_params`) -/

/-- A minimal structured value for `json.loads` results / `json.dumps`
arguments. -/
inductive JsonV where
  | jnull
  | jbool (b : Bool)
  | jnum (n : Int)
  | jstr (s : String)
  | jarr (l : List JsonV)
  | jobj (l : List (String × JsonV))

/-- A Python value passed as a handler argument by the binder. -/
inductive PyVal where
  | vRequest (r : HttpRequest)
  | vHeaders (h : HttpHeaders)
  | vBytes (b : Option String)
  | vJson (j : JsonV)
  | vVars (m : List (String × String))
  | vNone

/-- The `uri_variables` arm of `_convert_params` (lines 74-79) for a compiled
template pattern: with exactly one declared variable,
`dict(zip(uri_variables, re.findall(...)))` zips the names with the list of
single-group captures; otherwise `re.findall(...)[0]` takes the capture tuple
of the (sole, anchored) match — raising `IndexError` when there is none — and
zips positionally. -/
def bindUriVariables (names : List String) (segs : List TSeg) (path : String) :
    Except PyError (List (String × String)) :=
  if names.length = 1 then
    .ok (names.zip ((findallTemplate segs path).map (fun caps => caps.headD "")))
  else
    match findallTemplate segs path with
    | [] => .error .indexError
    | caps :: _ => .ok (names.zip caps)

/-- One parameter name resolved by `_convert_params`. `json_loads` is the
stdlib `json.loads` (raising `TypeError` on `None`, `JSONDecodeError` on bad
input), passed as an environment parameter. -/
def bindParam (json_loads : Option String → Except PyError JsonV)
    (request : HttpRequest) (route : UriRoute) (param_name : String) :
    Except PyError PyVal :=
  if param_name = "request" then .ok (.vRequest request)
  else if param_name = "headers" then .ok (.vHeaders request.headers)
  else if param_name = "raw_body" then .ok (.vBytes request.body)
  else if param_name = "body" then (json_loads request.body).map .vJson
  else if param_name = "uri_variables" then
    match route.uri_variables with
    | none => .error .typeError
    | some names =>
      match route.path with
      | .template segs => (bindUriVariables names segs request.path).map .vVars
      | _ => .error .typeError
  else .ok .vNone

/-- The binding loop of `_convert_params`, in declaration order; the first
raising binding raises. -/
def bindParams (json_loads : Option String → Except PyError JsonV)
    (request : HttpRequest) (route : UriRoute) :
    List String → Except PyError (List PyVal)
  | [] => .ok []
  | p :: rest =>
    match bindParam json_loads request route p with
    | .error e => .error e
    | .ok v => (bindParams json_loads request route rest).map (fun vs => v :: vs)

/-- Function `_convert_params(request, route, method)`: bind every declared argument
name after skipping `self` for bound methods (`args_index`). -/
def _convert_params (json_loads : Option String → Except PyError JsonV)
    (request : HttpRequest) (route : UriRoute) (isFunctionType : Bool) :
    Except PyError (List PyVal) :=
  bindParams json_loads request route
    (route.call_args.drop (if isFunctionType then 0 else 1))

/-! ## Route lookup (server.py lines 137-157 and 234-242) -/

/-- The route tables of `HttpServer`: `self._static_routes` is a dict from
`f'{http_method}:{route.path}'` to a
`(route, method)` pair, `self._regex_routes` the registration-ordered list of
`(route, method)` pairs. Bound handler methods are identified by a `Nat`. -/
structure ServerRoutes where
  _static_routes : List (String × (UriRoute × Nat))
  _regex_routes : List (UriRoute × Nat)

/-- Method `HttpServer._find_route`: the O(1) exact lookup under `METHOD:path` wins;
otherwise the first matching entry of the regex list; otherwise nothing
(`None, None` in the source). -/
def _find_route (s : ServerRoutes) (method path : String) : Option (UriRoute × Nat) :=
  match dictGet (method ++ ":" ++ path) s._static_routes with
  | some mapping => some mapping
  | none => s._regex_routes.find? (fun e => e.1.match' method path)

/-! ## The dispatcher (server.py lines 199-225) -/

/-- An exception escaping parameter binding or the handler call. -/
inductive PyExn where
  /-- Modelled from the spec: `HttpResponseException`, the structured error
  a handler can raise carrying its own status code, headers and body
  (§4.7/§6 of the spec; raised by `demo.py`, imported from this package, but
  its defining module is not under `src/`). -/
  | httpResponseException (status_code : Nat) (headers : Option HttpHeaders)
      (body : Option String)
  /-- Any other exception (decode failures, handler bugs, …). -/
  | otherError (msg : String)

/-- A handler's return value, as discriminated by `_process_request`:
an `HttpResponse` instance, `None`, or any other value (serialized with
`json.dumps`). -/
inductive HandlerResult where
  | resp (r : HttpResponse)
  | noneResult
  | jsonResult (v : JsonV)

/-- Method `HttpServer.build_http_404_response`. -/
def build_http_404_response (_method _path : String) : HttpResponse :=
  { status_code := 404 }

/-- Method `HttpServer.build_http_500_response`: an empty 500, ignoring the
exception. -/
def build_http_500_response (_e : PyExn) : HttpResponse :=
  { status_code := 500 }

/-- Method `HttpServer._process_request` after the route was found: the combined
outcome of `_convert_params` plus the handler call (and `await`) is either a
value — normalized to an `HttpResponse` — or an exception, which the bare
`except Exception` turns into `build_http_500_response` regardless of its
type or contents. The response is then sent via `_send_response`
(`send_response_cycle`). `json_dumps` stands for the stdlib serializer. -/
def _process_request (fileSize : String → Nat) (fileContents : String → String)
    (json_dumps : JsonV → String) (defaults : HttpHeaders)
    (outcome : Except PyExn HandlerResult) :
    HttpHeaders × Except PyError WireResponse :=
  match outcome with
  | .ok (.resp r) => send_response_cycle fileSize fileContents defaults r
  | .ok .noneResult =>
    send_response_cycle fileSize fileContents defaults { status_code := 204 }
  | .ok (.jsonResult v) =>
    send_response_cycle fileSize fileContents defaults
      { status_code := 200, body := some (json_dumps v) }
  | .error e =>
    send_response_cycle fileSize fileContents defaults (build_http_500_response e)

/-! ## The per-connection read step (server.py lines 175-197,
`HttpServer._handle_client`) -/

/-- What one iteration of the `_handle_client` loop does with the stream
before dispatching: `request is None` breaks out of the loop (clean close),
an exception from `http_parser` is caught by the `except` clauses (logged as
a failure, connection closed), and otherwise the request goes on to routing. -/
inductive ConnStep where
  | cleanClose
  | failure (e : PyError)
  | dispatch (r : HttpRequest) (rest : List Char)
deriving Repr, DecidableEq

/-- The read step of `_handle_client` on the remaining stream. -/
def handle_client_read (s : List Char) : ConnStep :=
  match http_parse s with
  | .ok (none, _) => .cleanClose
  | .ok (some r, rest) => .dispatch r rest
  | .error e => .failure e

/-! ## Supporting lemmas: the dict helpers -/

/-- The keys of an association list, in order. -/
def keysOf {α : Type} (m : List (String × α)) : List String := m.map Prod.fst

/-- All values that a sequence of entries contributes under key `k`,
concatenated in entry order. -/
def esVals (k : String) (es : List (String × List String)) : List String :=
  ((es.filter (fun e => e.1 = k)).map (fun e => e.2)).flatten

/-- Folding `dictExtend` over a list of entries, the shape of both `merge`
branches. -/
def foldExtend (m es : List (String × List String)) : List (String × List String) :=
  es.foldl (fun acc e => dictExtend e.1 e.2 acc) m

theorem esVals_nil (k : String) : esVals k [] = [] := rfl

theorem esVals_cons (k : String) (e : String × List String) (es : List (String × List String)) :
    esVals k (e :: es) = (if e.1 = k then e.2 else []) ++ esVals k es := by
  by_cases h : e.1 = k <;> simp [esVals, h]

theorem esVals_of_not_mem (k : String) (es : List (String × List String))
    (h : k ∉ keysOf es) : esVals k es = [] := by
  induction es with
  | nil => rfl
  | cons e es ih =>
    rw [esVals_cons]
    have h1 : e.1 ≠ k := by
      intro hk
      exact h (by simp [keysOf, hk])
    have h2 : k ∉ keysOf es := fun hk => h (by simp [keysOf] at hk ⊢; exact .inr hk)
    simp [h1, ih h2]

theorem esVals_eq_getD (k : String) (es : List (String × List String))
    (h : (keysOf es).Nodup) : esVals k es = (dictGet k es).getD [] := by
  induction es with
  | nil => rfl
  | cons e es ih =>
    obtain ⟨k₀, vs⟩ := e
    rw [esVals_cons]
    simp only [keysOf, List.map_cons, List.nodup_cons] at h
    by_cases hk : k₀ = k
    · subst hk
      rw [esVals_of_not_mem k₀ es h.1, dictGet]
      simp
    · simp [dictGet, hk, ih h.2]

theorem dictGet_dictSet_self {α : Type} (k : String) (v : α) (m : List (String × α)) :
    dictGet k (dictSet k v m) = some v := by
  induction m with
  | nil => simp [dictSet, dictGet]
  | cons e rest ih =>
    obtain ⟨k', v'⟩ := e
    by_cases h : k' = k
    · simp [dictSet, dictGet, h]
    · simp [dictSet, dictGet, h, ih]

theorem dictGet_dictSet_ne {α : Type} (k k₀ : String) (v : α) (m : List (String × α))
    (hne : k ≠ k₀) : dictGet k (dictSet k₀ v m) = dictGet k m := by
  have hne' : ¬k₀ = k := fun hh => hne (Eq.symm hh)
  induction m with
  | nil => simp [dictSet, dictGet, hne']
  | cons e rest ih =>
    obtain ⟨k', v'⟩ := e
    by_cases h1 : k' = k₀
    · subst h1
      have h2 : ¬k' = k := fun hh => hne (Eq.symm hh)
      simp [dictSet, dictGet, h2]
    · by_cases h2 : k' = k
      · simp [dictSet, dictGet, h1, h2, hne, hne']
      · simp [dictSet, dictGet, h1, h2, ih]

theorem dictGet_dictExtend (k k₀ : String) (vs : List String)
    (m : List (String × List String)) :
    dictGet k (dictExtend k₀ vs m) =
      if k₀ = k then some ((dictGet k m).getD [] ++ vs) else dictGet k m := by
  induction m with
  | nil => by_cases h : k₀ = k <;> simp [dictExtend, dictGet, h]
  | cons e rest ih =>
    obtain ⟨k', v'⟩ := e
    by_cases h1 : k' = k₀
    · subst h1
      by_cases h2 : k' = k <;> simp [dictExtend, dictGet, h2]
    · by_cases h2 : k' = k
      · subst h2
        have h3 : k₀ ≠ k' := fun h => h1 h.symm
        simp [dictExtend, dictGet, h1, h3]
      · simp [dictExtend, dictGet, h1, h2, ih]

theorem foldExtend_cons (m : List (String × List String)) (e : String × List String)
    (es : List (String × List String)) :
    foldExtend m (e :: es) = foldExtend (dictExtend e.1 e.2 m) es := rfl

theorem dictGet_foldExtend (k : String) (es : List (String × List String)) :
    ∀ m, (dictGet k (foldExtend m es)).getD [] = (dictGet k m).getD [] ++ esVals k es := by
  induction es with
  | nil => intro m; simp [foldExtend, esVals]
  | cons e es ih =>
    intro m
    rw [foldExtend_cons, ih, dictGet_dictExtend, esVals_cons]
    by_cases h : e.1 = k <;> simp [h]

theorem keysOf_dictExtend (k : String) (vs : List String)
    (m : List (String × List String)) :
    keysOf (dictExtend k vs m) =
      if k ∈ keysOf m then keysOf m else keysOf m ++ [k] := by
  induction m with
  | nil => simp [dictExtend, keysOf]
  | cons e rest ih =>
    obtain ⟨k', v'⟩ := e
    by_cases h : k' = k
    · subst h
      simp [dictExtend, keysOf]
    · have h' : ¬k = k' := fun hh => h (Eq.symm hh)
      by_cases h2 : k ∈ keysOf rest
      · simp only [keysOf, List.map_cons] at *
        simp [dictExtend, h, h2, ih, h']
      · simp only [keysOf, List.map_cons] at *
        simp [dictExtend, h, h2, ih, h']

theorem nodup_keys_dictExtend (k : String) (vs : List String)
    (m : List (String × List String)) (h : (keysOf m).Nodup) :
    (keysOf (dictExtend k vs m)).Nodup := by
  rw [keysOf_dictExtend]
  by_cases hm : k ∈ keysOf m
  · simp [hm, h]
  · simp [hm, List.nodup_append, h, List.disjoint_singleton]

theorem nodup_keys_foldExtend (es : List (String × List String)) :
    ∀ m, (keysOf m).Nodup → (keysOf (foldExtend m es)).Nodup := by
  induction es with
  | nil => intro m h; exact h
  | cons e es ih =>
    intro m h
    rw [foldExtend_cons]
    exact ih _ (nodup_keys_dictExtend e.1 e.2 m h)

theorem keysOf_dictSet {α : Type} (k : String) (v : α) (m : List (String × α)) :
    keysOf (dictSet k v m) = if k ∈ keysOf m then keysOf m else keysOf m ++ [k] := by
  induction m with
  | nil => simp [dictSet, keysOf]
  | cons e rest ih =>
    obtain ⟨k', v'⟩ := e
    by_cases h : k' = k
    · subst h
      simp [dictSet, keysOf]
    · have h' : ¬k = k' := fun hh => h (Eq.symm hh)
      by_cases h2 : k ∈ keysOf rest
      · simp only [keysOf, List.map_cons] at *
        simp [dictSet, h, h2, ih, h']
      · simp only [keysOf, List.map_cons] at *
        simp [dictSet, h, h2, ih, h']

theorem nodup_keys_dictSet {α : Type} (k : String) (v : α) (m : List (String × α))
    (h : (keysOf m).Nodup) : (keysOf (dictSet k v m)).Nodup := by
  rw [keysOf_dictSet]
  by_cases hm : k ∈ keysOf m
  · simp [hm, h]
  · simp [hm, List.nodup_append, h, List.disjoint_singleton]

theorem len_dictExtend (k : String) (vs : List String) (m : List (String × List String)) :
    HttpHeaders.len ⟨dictExtend k vs m⟩ = HttpHeaders.len ⟨m⟩ + vs.length := by
  induction m with
  | nil => simp [dictExtend, HttpHeaders.len]
  | cons e rest ih =>
    obtain ⟨k', v'⟩ := e
    by_cases h : k' = k
    · simp [dictExtend, HttpHeaders.len, h]
      omega
    · simp [dictExtend, HttpHeaders.len, h] at ih ⊢
      omega

theorem len_foldExtend_ge (es : List (String × List String)) :
    ∀ m, HttpHeaders.len ⟨m⟩ ≤ HttpHeaders.len ⟨foldExtend m es⟩ := by
  induction es with
  | nil => intro m; exact Nat.le_refl _
  | cons e es ih =>
    intro m
    rw [foldExtend_cons]
    calc HttpHeaders.len ⟨m⟩
        ≤ HttpHeaders.len ⟨dictExtend e.1 e.2 m⟩ := by rw [len_dictExtend]; omega
      _ ≤ _ := ih _

/-! ## Supporting lemmas: `items` and `valuesAt` -/

theorem valuesAt_append (k : String) (l₁ l₂ : List (String × String)) :
    valuesAt k (l₁ ++ l₂) = valuesAt k l₁ ++ valuesAt k l₂ := by
  simp [valuesAt, List.filter_append]

theorem valuesAt_pairs (k k₀ : String) (vs : List String) :
    valuesAt k (vs.map (fun v => (k₀, v))) = if k₀ = k then vs else [] := by
  induction vs with
  | nil => by_cases h : k₀ = k <;> simp [valuesAt, h]
  | cons v vs ih =>
    by_cases h : k₀ = k
    · simp [valuesAt, h] at ih ⊢
      exact ih
    · simp [valuesAt, h] at ih ⊢

theorem items_cons (e : String × List String) (m : List (String × List String)) :
    HttpHeaders.items ⟨e :: m⟩ = e.2.map (fun v => (e.1, v)) ++ HttpHeaders.items ⟨m⟩ := by
  simp [HttpHeaders.items]

theorem valuesAt_items_of_not_mem (k : String) (m : List (String × List String))
    (h : k ∉ keysOf m) : valuesAt k (HttpHeaders.items ⟨m⟩) = [] := by
  induction m with
  | nil => rfl
  | cons e rest ih =>
    rw [items_cons, valuesAt_append, valuesAt_pairs]
    have h1 : e.1 ≠ k := fun hk => h (by simp [keysOf, hk])
    have h2 : k ∉ keysOf rest := fun hk => h (by simp [keysOf] at hk ⊢; exact .inr hk)
    simp [h1, ih h2]

theorem valuesAt_items (k : String) (m : List (String × List String))
    (h : (keysOf m).Nodup) : valuesAt k (HttpHeaders.items ⟨m⟩) = (dictGet k m).getD [] := by
  induction m with
  | nil => rfl
  | cons e rest ih =>
    obtain ⟨k₀, vs⟩ := e
    simp only [keysOf, List.map_cons, List.nodup_cons] at h
    rw [items_cons, valuesAt_append, valuesAt_pairs]
    by_cases hk : k₀ = k
    · subst hk
      rw [valuesAt_items_of_not_mem k₀ rest h.1]
      simp [dictGet]
    · simp [dictGet, hk, ih h.2]

/-! ## Supporting lemmas: `find?` over a split list -/

theorem find?_middle {α : Type} (p : α → Bool) (l₁ l₂ : List α) (e : α)
    (hl : ∀ x ∈ l₁, p x = false) (he : p e = true) :
    (l₁ ++ e :: l₂).find? p = some e := by
  induction l₁ with
  | nil =>
    rw [List.nil_append, List.find?_cons_of_pos _ he]
  | cons a l ih =>
    have ha : ¬p a = true := by
      rw [hl a (List.mem_cons_self a l)]
      exact Bool.false_ne_true
    rw [List.cons_append, List.find?_cons_of_neg _ ha]
    exact ih fun x hx => hl x (List.mem_cons_of_mem a hx)

/-! ## Supporting lemmas: template matching -/

theorem tryLens_shape (f : List Char → Option (List String)) (s : List Char) :
    ∀ (k : Nat) (cs : List String), tryLens f s k = some cs →
      ∃ c cs' j, cs = c :: cs' ∧ f (s.drop j) = some cs' := by
  intro k
  induction k with
  | zero =>
    intro cs h
    simp only [tryLens] at h
    cases hf : f s with
    | none => rw [hf] at h; simp at h
    | some cs' =>
      rw [hf] at h
      simp only [Option.map_some', Option.some.injEq] at h
      exact ⟨"", cs', 0, h.symm, by rw [List.drop_zero]; exact hf⟩
  | succ k ih =>
    intro cs h
    simp only [tryLens] at h
    cases hf : f (s.drop (k + 1)) with
    | some cs' =>
      rw [hf] at h
      simp only [Option.some.injEq] at h
      exact ⟨⟨s.take (k + 1)⟩, cs', k + 1, h.symm, hf⟩
    | none =>
      rw [hf] at h
      exact ih cs h

theorem tmatchF_length : ∀ (fuel : Nat) (segs : List TSeg) (s : List Char) (caps : List String),
    tmatchF fuel segs s = some caps →
    caps.length = (segs.filterMap TSeg.varName?).length := by
  intro fuel
  induction fuel with
  | zero => intro segs s caps h; simp [tmatchF] at h
  | succ fuel ih =>
    intro segs s caps h
    match segs with
    | [] =>
      simp only [tmatchF] at h
      by_cases hs : s = []
      · rw [if_pos hs] at h
        simp only [Option.some.injEq] at h
        simp [← h]
      · rw [if_neg hs] at h
        exact absurd h (by simp)
    | .lit l :: rest =>
      simp only [tmatchF] at h
      by_cases hp : l.data.isPrefixOf s
      · rw [if_pos hp] at h
        simpa [TSeg.varName?] using ih rest _ caps h
      · rw [if_neg hp] at h
        exact absurd h (by simp)
    | .var n :: rest =>
      simp only [tmatchF] at h
      obtain ⟨c, cs', j, hcs, hf⟩ := tryLens_shape _ _ _ _ h
      subst hcs
      simp [TSeg.varName?, ih rest _ cs' hf]

/-- The capture list of a successful anchored match has exactly one entry per
variable of the pattern. -/
theorem tmatch_length (segs : List TSeg) (s : List Char) (caps : List String)
    (h : tmatch segs s = some caps) :
    caps.length = (segs.filterMap TSeg.varName?).length :=
  tmatchF_length (segs.length + 1) segs s caps h

/-! ## Supporting lemmas: the stream reader -/

theorem findSubstr_bound (sep : List Char) :
    ∀ (s : List Char) (i : Nat), findSubstr sep s = some i → i + sep.length ≤ s.length := by
  intro s
  induction s with
  | nil => intro i h; simp [findSubstr] at h
  | cons c rest ih =>
    intro i h
    simp only [findSubstr] at h
    by_cases hp : sep.isPrefixOf (c :: rest)
    · rw [if_pos hp] at h
      simp only [Option.some.injEq] at h
      subst h
      have := List.IsPrefix.length_le (List.isPrefixOf_iff_prefix.mp hp)
      omega
    · rw [if_neg hp] at h
      cases hf : findSubstr sep rest with
      | none => rw [hf] at h; simp at h
      | some j =>
        rw [hf] at h
        simp only [Option.map_some', Option.some.injEq] at h
        subst h
        have := ih j hf
        simp only [List.length_cons]
        omega

/-- The line returned by `readuntil(b'\r\n')` always contains the separator,
so it is never empty: the source's `if not line` guard is dead code. -/
theorem readuntilCRLF_line_ne_nil (s line rest : List Char)
    (h : readuntilCRLF s = .ok (line, rest)) : line ≠ [] := by
  unfold readuntilCRLF at h
  cases hf : findSubstr ['\r', '\n'] s with
  | none => rw [hf] at h; exact absurd h (by simp)
  | some i =>
    rw [hf] at h
    simp only [Except.ok.injEq, Prod.mk.injEq] at h
    have hb := findSubstr_bound _ s i hf
    simp only [List.length_cons, List.length_nil] at hb
    intro hnil
    rw [← h.1] at hnil
    have : (s.take (i + 2)).length = 0 := by rw [hnil]; rfl
    rw [List.length_take] at this
    omega

/-! ## Claim theorems -/

/-- C1: in `_convert_params`, a handler parameter named `query_params` does
NOT resolve to the request's parsed query mapping — it falls into the
unrecognized-name branch and is bound to `None`, exactly like a name outside
the vocabulary. Evaluated at the shape of the demo's `/bar` handler
(`def bar(self, headers, query_params)`) on a request whose parsed query
mapping is non-empty: the binder produces `[headers, None]`. -/
theorem c1_query_params_binds_none :
    _convert_params (fun _ => .error .typeError)
      { stamp := 0, method := "GET", path := "/bar",
        query_params := [("a", ["10"])], version := "HTTP/1.1",
        headers := ⟨[("x-h", ["v"])]⟩, body := none }
      { path := .static "/bar", http_method := ["GET"],
        uri_variables := none,
        call_args := ["self", "headers", "query_params"] }
      false
    = .ok [.vHeaders ⟨[("x-h", ["v"])]⟩, .vNone] := rfl

/-- C2: `_process_request` funnels every exception — including the structured
`HttpResponseException` carrying its own status code, headers and body — into
`build_http_500_response`, so the wire sees an empty 500 instead of the
attached 400 response with its custom header and body (the exact scenario of
the demo's `/test-exception` handler). -/
theorem c2_structured_error_sent_as_500 :
    _process_request (fun _ => 0) (fun _ => "") (fun _ => "") HttpHeaders.empty
      (.error (.httpResponseException 400
        (some ⟨[("x-foo", ["custom stuff"])]⟩) (some "custom-body")))
    = (HttpHeaders.empty, .ok ⟨500, [("content-length", "0")], ""⟩) := rfl

/-- C7: a connection that ends with zero bytes read does NOT yield the `None`
"no request" result: `readuntil` raises `IncompleteReadError` on the empty
stream, `_handle_client` catches it in the failure branch (a logged warning),
and in fact no stream whatsoever can make `http_parser` return `None`,
because `readuntil` never returns an empty line. -/
theorem c7_empty_stream_is_failure :
    http_parse [] = .error .incompleteReadError
  ∧ handle_client_read [] = .failure .incompleteReadError
  ∧ ∀ (s : List Char) (res : Option HttpRequest × List Char),
      http_parse s = .ok res → res.1.isSome = true := by
  refine ⟨rfl, rfl, ?_⟩
  intro s res h
  unfold http_parse at h
  split at h
  · exact absurd h (by simp)
  · rename_i line rest heq
    have hne : line ≠ [] := readuntilCRLF_line_ne_nil s line rest heq
    rw [if_neg hne] at h
    repeat' split at h
    all_goals first
      | (cases h; rfl)
      | (exact absurd h (by simp))

/-- C8, counterexample: a request whose `content-length` header is present but
does not parse as an integer does NOT produce a request with an absent body —
`int('abc')` raises `ValueError`, no request is produced, and the connection
loop treats it as a failure and closes. -/
theorem c8_counterexample_nonint_content_length :
    http_parse "GET /x HTTP/1.1\r\ncontent-length: abc\r\n\r\n".data
      = .error .valueError
  ∧ handle_client_read "GET /x HTTP/1.1\r\ncontent-length: abc\r\n\r\n".data
      = .failure .valueError := ⟨rfl, rfl⟩

/-- C8 (amended): absent (or empty-valued) `content-length` gives an absent
body; a value parsing to an integer `n ≤ 0` gives an absent body; a value
parsing to `n > 0` makes the body exactly the next `n` characters of the
stream; a value that does not parse as an integer raises `ValueError`, so no
request is produced. The spec's own concrete example parses as stated. -/
theorem c8_body_rule_amended (h : HttpHeaders) (s : List Char) :
    ((h.get_list "content-length" = none ∨ h.get_list "content-length" = some []) →
      readBody h s = .ok (none, s))
  ∧ (∀ v rest, h.get_list "content-length" = some (v :: rest) → pyInt v = none →
      readBody h s = .error .valueError)
  ∧ (∀ v rest n, h.get_list "content-length" = some (v :: rest) → pyInt v = some n →
      n ≤ 0 → readBody h s = .ok (none, s))
  ∧ (∀ v rest n, h.get_list "content-length" = some (v :: rest) → pyInt v = some n →
      0 < n → n.toNat ≤ s.length →
      readBody h s = .ok (some ⟨s.take n.toNat⟩, s.drop n.toNat))
  ∧ http_parse "POST /foo HTTP/1.1\r\nContent-Length: 3\r\nX-Foo: 10\r\n\r\nabc".data
      = .ok (some
          { stamp := 0, method := "POST", path := "/foo", query_params := [],
            version := "HTTP/1.1",
            headers := ⟨[("content-length", ["3"]), ("x-foo", ["10"])]⟩,
            body := some "abc" }, []) := by
  refine ⟨?_, ?_, ?_, ?_, rfl⟩
  · intro hcl
    have hg : getContentLength h = .ok (-1) := by
      unfold getContentLength
      rcases hcl with hcl | hcl <;> rw [hcl]
    unfold readBody
    rw [hg]
    rfl
  · intro v rest hcl hv
    have hg : getContentLength h = .error .valueError := by
      unfold getContentLength
      rw [hcl]
      show pyIntExcept v = _
      unfold pyIntExcept
      rw [hv]
    unfold readBody
    rw [hg]
  · intro v rest n hcl hv hn
    have hg : getContentLength h = .ok n := by
      unfold getContentLength
      rw [hcl]
      show pyIntExcept v = _
      unfold pyIntExcept
      rw [hv]
    unfold readBody
    rw [hg]
    show readBodyLen n s = .ok (none, s)
    unfold readBodyLen
    rw [if_neg (by omega)]
  · intro v rest n hcl hv hn hlen
    have hg : getContentLength h = .ok n := by
      unfold getContentLength
      rw [hcl]
      show pyIntExcept v = _
      unfold pyIntExcept
      rw [hv]
    have hre : readexactly n.toNat s = .ok (s.take n.toNat, s.drop n.toNat) := by
      unfold readexactly
      rw [if_pos hlen]
    unfold readBody
    rw [hg]
    show readBodyLen n s = _
    unfold readBodyLen
    rw [if_pos hn, hre]

/-- C8, witness: the positive-`content-length` conjunct of the amended claim
at a concrete header table and stream. -/
theorem c8_body_rule_amended_witness :
    readBody ⟨[("content-length", ["2"])]⟩ "abcd".data = .ok (some "ab", "cd".data) :=
  (c8_body_rule_amended ⟨[("content-length", ["2"])]⟩ "abcd".data).2.2.2.1
    "2" [] 2 rfl rfl (by decide) (by decide)

/-- C3, counterexample: processing a response that carries no headers object
(the stock 404) mutates the server-wide default-headers table — the source
aliases `response.headers` to the defaults, and `http_send_response` then sets
`content-length` on the aliased (truthy) table. -/
theorem c3_counterexample_defaults_mutated :
    (send_response_cycle (fun _ => 0) (fun _ => "")
        ⟨[("x-a", ["1"])]⟩ { status_code := 404 }).1
      ≠ (⟨[("x-a", ["1"])]⟩ : HttpHeaders) := by
  decide

/-- C3 (amended): the default-headers table is unchanged by a sending cycle
whenever the response carries a truthy (non-empty) headers table of its own,
and also whenever the defaults themselves are empty (a fresh table is swapped
in) or the status code is invalid (the cycle raises before the mutation); but
when the response has no (or an empty) headers object, the defaults are
non-empty and the status is valid, the cycle mutates the defaults table by
setting `content-length` on it. -/
theorem c3_defaults_frame_amended (fileSize : String → Nat)
    (fileContents : String → String) (d : HttpHeaders) (r : HttpResponse) :
    (pyTruthyHeaders r.headers = true →
      (send_response_cycle fileSize fileContents d r).1 = d)
  ∧ (pyTruthyHeaders r.headers = false → d.len = 0 →
      (send_response_cycle fileSize fileContents d r).1 = d)
  ∧ (pyTruthyHeaders r.headers = false → d.len ≠ 0 →
      isValidHTTPStatus r.status_code = true →
      (send_response_cycle fileSize fileContents d r).1 =
        d.set "content-length" (toString (responseContentLength fileSize r)))
  ∧ (pyTruthyHeaders r.headers = false → d.len ≠ 0 →
      isValidHTTPStatus r.status_code = false →
      (send_response_cycle fileSize fileContents d r).1 = d) := by
  refine ⟨?_, ?_, ?_, ?_⟩
  · intro ht
    simp [send_response_cycle, ht]
  · intro ht hd
    simp [send_response_cycle, ht, hd]
  · intro ht hd hv
    simp [send_response_cycle, emitResponse, ht, hd, hv]
  · intro ht hd hv
    simp [send_response_cycle, emitResponse, ht, hd, hv]

/-- C3, witness: the mutating conjunct of the amended claim at the concrete
counterexample input. -/
theorem c3_defaults_frame_amended_witness :
    (send_response_cycle (fun _ => 0) (fun _ => "")
        ⟨[("x-a", ["1"])]⟩ { status_code := 404 }).1
      = HttpHeaders.set ⟨[("x-a", ["1"])]⟩ "content-length" "0" :=
  (c3_defaults_frame_amended (fun _ => 0) (fun _ => "") ⟨[("x-a", ["1"])]⟩
    { status_code := 404 }).2.2.1 rfl (by decide) (by decide)

/-- C10: a `HttpResponse` whose body is the empty byte string is serialized
exactly like one with an absent body — `content-length` is the file's size if
a (truthy) `file_path` is set and `0` otherwise, and the payload is the
file's contents or nothing; the empty body is never the payload source. -/
theorem c10_empty_body_as_absent (fileSize : String → Nat)
    (fileContents : String → String) (r : HttpResponse) (hb : r.body = some "") :
    (r.file_path = none →
      responseContentLength fileSize r = 0 ∧ responsePayload fileContents r = "")
  ∧ (∀ p, r.file_path = some p → p ≠ "" →
      responseContentLength fileSize r = fileSize p ∧
        responsePayload fileContents r = fileContents p) := by
  obtain ⟨st, hdrs, bd, fp⟩ := r
  simp only at hb
  subst hb
  constructor
  · intro hf
    simp only at hf
    subst hf
    exact ⟨rfl, rfl⟩
  · intro p hf hp
    simp only at hf
    subst hf
    have hpe : p.data.isEmpty = false := by
      cases hq : p.data.isEmpty
      · rfl
      · exfalso
        apply hp
        have : p.data = [] := by simpa using hq
        cases p
        simp_all
    constructor
    · simp [responseContentLength, pyTruthyBody, pyTruthyPath, hpe]
    · simp [responsePayload, pyTruthyBody, pyTruthyPath, hpe]

/-- C10, witness: the file-path conjunct at a concrete response with an empty
body and a set file path. -/
theorem c10_empty_body_as_absent_witness :
    responseContentLength (fun _ => 7)
        { status_code := 200, body := some "", file_path := some "f" } = 7
  ∧ responsePayload (fun _ => "abcdefg")
        { status_code := 200, body := some "", file_path := some "f" } = "abcdefg" :=
  (c10_empty_body_as_absent (fun _ => 7) (fun _ => "abcdefg")
    { status_code := 200, body := some "", file_path := some "f" } rfl).2
    "f" rfl (by decide)

/-- C4: `_find_route` gives absolute priority to the exact-route map — an
entry registered under `METHOD:path` is selected no matter what the
pattern/variable list contains — and otherwise selects the first
registration-ordered pattern/variable entry whose method set contains the
request's method and whose matcher matches the path; with no match in either
table the result is nothing. -/
theorem c4_find_route_priority (s : ServerRoutes) (method path : String) :
    (∀ e, dictGet (method ++ ":" ++ path) s._static_routes = some e →
      _find_route s method path = some e)
  ∧ (∀ l₁ e l₂, dictGet (method ++ ":" ++ path) s._static_routes = none →
      s._regex_routes = l₁ ++ e :: l₂ →
      (∀ e' ∈ l₁, e'.1.match' method path = false) →
      e.1.match' method path = true →
      _find_route s method path = some e)
  ∧ (dictGet (method ++ ":" ++ path) s._static_routes = none →
      (∀ e ∈ s._regex_routes, e.1.match' method path = false) →
      _find_route s method path = none) := by
  refine ⟨?_, ?_, ?_⟩
  · intro e he
    unfold _find_route
    rw [he]
  · intro l₁ e l₂ hs hr hfail hok
    unfold _find_route
    rw [hs]
    show s._regex_routes.find? (fun x => x.1.match' method path) = some e
    rw [hr]
    exact find?_middle _ l₁ l₂ e hfail hok
  · intro hs hfail
    unfold _find_route
    rw [hs]
    show s._regex_routes.find? (fun x => x.1.match' method path) = none
    exact List.find?_eq_none.mpr fun x hx => by rw [hfail x hx]; exact Bool.false_ne_true

/-- Concrete exact route for the `_find_route` witness. -/
def routeExact : UriRoute :=
  { path := .static "/a", http_method := ["GET"], uri_variables := none,
    call_args := ["self"] }

/-- Concrete pattern route with a non-matching method set. -/
def routePatternPost : UriRoute :=
  { path := .regexAbs (fun p => p = "/p"), http_method := ["POST"],
    uri_variables := none, call_args := ["self"] }

/-- Concrete pattern route matching every path on GET. -/
def routePatternAll : UriRoute :=
  { path := .regexAbs (fun _ => true), http_method := ["GET"],
    uri_variables := none, call_args := ["self"] }

/-- Concrete route tables for the `_find_route` witness. -/
def demoRoutes : ServerRoutes :=
  { _static_routes := [("GET:/a", (routeExact, 1))],
    _regex_routes := [(routePatternPost, 2), (routePatternAll, 3)] }

/-- C4, witness: with no exact entry for `GET:/p`, the first pattern route is
skipped (its method set lacks GET) and the second is selected. -/
theorem c4_find_route_priority_witness :
    _find_route demoRoutes "GET" "/p" = some (routePatternAll, 3) :=
  (c4_find_route_priority demoRoutes "GET" "/p").2.1
    [(routePatternPost, 2)] (routePatternAll, 3) [] rfl rfl
    (by
      intro e' he'
      rw [List.mem_singleton] at he'
      subst he'
      rfl)
    rfl

/-- Template compilation and `uri_variables` binding composed, for concrete
evaluation of the spec's examples. -/
def bindVarsOf (tmpl path : String) : Except PyError (List (String × String)) :=
  bindUriVariables (_uri_variable_to_pattern tmpl).1 (_uri_variable_to_pattern tmpl).2 path

/-- C5: for every compiled `(lbrace)name(rbrace)`-template route and every
path its anchored pattern matches, the `uri_variables` binding is exactly the
positional zip of the declared variable names with the captured substrings —
in both the single-variable fast path and the general path — and the spec's
two concrete examples evaluate as stated. -/
theorem c5_uri_variables_positional :
    (∀ (tmpl path : String) (names : List String) (segs : List TSeg)
        (caps : List String),
      _uri_variable_to_pattern tmpl = (names, segs) →
      tmatch segs path.data = some caps →
      bindUriVariables names segs path = .ok (names.zip caps))
  ∧ bindVarsOf "/aaa/{bbb}" "/aaa/42" = .ok [("bbb", "42")]
  ∧ bindVarsOf "/aaa/{bbb}/ccc/{ddd}" "/aaa/1/ccc/2"
      = .ok [("bbb", "1"), ("ddd", "2")] := by
  refine ⟨?_, rfl, rfl⟩
  intro tmpl path names segs caps hparse htm
  unfold _uri_variable_to_pattern at hparse
  injection hparse with h1 h2
  subst h2
  subst h1
  revert htm
  generalize parseTSegs tmpl.data = segs
  intro htm
  have hlen : caps.length = (segs.filterMap TSeg.varName?).length :=
    tmatch_length segs path.data caps htm
  unfold bindUriVariables
  by_cases h1 : (segs.filterMap TSeg.varName?).length = 1
  · rw [if_pos h1]
    have hc1 : caps.length = 1 := by rw [hlen, h1]
    obtain ⟨c, rfl⟩ := List.length_eq_one.mp hc1
    unfold findallTemplate
    rw [htm]
    rfl
  · rw [if_neg h1]
    unfold findallTemplate
    rw [htm]

/-- C5, witness: the general conjunct applied to the template `/x/(lbrace)a(rbrace)`
and path `/x/7`. -/
theorem c5_uri_variables_positional_witness :
    bindUriVariables ["a"] [.lit "/x/", .var "a"] "/x/7" = .ok [("a", "7")] :=
  c5_uri_variables_positional.1 "/x/{a}" "/x/7" ["a"] [.lit "/x/", .var "a"] ["7"]
    rfl rfl

/-- C6, counterexample: merging a plain mapping does NOT lower-case its keys —
after `merge((lbrace)'X-Foo': 'v'(rbrace))` the table stores the key `X-Foo`
verbatim and the (lowering) reads can no longer see the value under any
casing. -/
theorem c6_counterexample_merge_dict_key_not_lowered :
    (HttpHeaders.empty.mergeDict [("X-Foo", ["v"])]).get_list "X-Foo" = none
  ∧ (HttpHeaders.empty.mergeDict [("X-Foo", ["v"])])._headers = [("X-Foo", ["v"])] :=
  ⟨rfl, rfl⟩

/-- C6 (amended): `set`/`add`/`get_list` lower-case the key on every write and
read, so lookups are case-insensitive, `set` replaces all values stored under
any casing of the name, and `add` appends at the end; `merge` of another
`HttpHeaders` appends the other table's values after the existing ones per
name; `merge` of a plain mapping behaves that way only when the mapping's
keys are already lower-case — its keys are inserted verbatim. -/
theorem c6_headers_amended :
    (∀ (t : HttpHeaders) (k₁ k₂ v : String), lowerStr k₁ = lowerStr k₂ →
      (t.set k₁ v).get_list k₂ = some [v])
  ∧ (∀ (t : HttpHeaders) (k₁ k₂ v : String), lowerStr k₁ = lowerStr k₂ →
      (t.add k₁ v).get_list k₂ = some ((t.get_list k₁).getD [] ++ [v]))
  ∧ (∀ (t u : HttpHeaders) (k : String), (keysOf u._headers).Nodup →
      ((t.merge u).get_list k).getD [] =
        (t.get_list k).getD [] ++ (u.get_list k).getD [])
  ∧ (∀ (t : HttpHeaders) (es : List (String × List String)) (k : String),
      (keysOf es).Nodup → lowerStr k = k →
      ((t.mergeDict es).get_list k).getD [] =
        (t.get_list k).getD [] ++ (dictGet k es).getD []) := by
  refine ⟨?_, ?_, ?_, ?_⟩
  · intro t k₁ k₂ v hk
    unfold HttpHeaders.set HttpHeaders.get_list
    rw [← hk]
    exact dictGet_dictSet_self _ _ _
  · intro t k₁ k₂ v hk
    unfold HttpHeaders.add HttpHeaders.get_list
    rw [← hk, dictGet_dictExtend, if_pos rfl]
  · intro t u k hnd
    unfold HttpHeaders.merge HttpHeaders.get_list
    show (dictGet (lowerStr k) (foldExtend t._headers u._headers)).getD [] = _
    rw [dictGet_foldExtend, esVals_eq_getD _ _ hnd]
  · intro t es k hnd hk
    unfold HttpHeaders.mergeDict HttpHeaders.get_list
    show (dictGet (lowerStr k) (foldExtend t._headers es)).getD [] = _
    rw [dictGet_foldExtend, esVals_eq_getD _ _ hnd, hk]

/-- C6, witness: all four conjuncts of the amended claim at concrete tables
(a mixed-case `set`/`add` read back lower-cased, and both merges appending). -/
theorem c6_headers_amended_witness :
    (HttpHeaders.empty.set "X-A" "1").get_list "x-a" = some ["1"]
  ∧ ((⟨[("x-a", ["1"])]⟩ : HttpHeaders).add "X-A" "2").get_list "x-a"
      = some (["1"] ++ ["2"])
  ∧ (((⟨[("h", ["a"])]⟩ : HttpHeaders).merge ⟨[("h", ["b"])]⟩).get_list "h").getD []
      = ["a"] ++ ["b"]
  ∧ ((HttpHeaders.empty.mergeDict [("h", ["b"])]).get_list "h").getD []
      = [] ++ ["b"] :=
  ⟨c6_headers_amended.1 HttpHeaders.empty "X-A" "x-a" "1" rfl,
   c6_headers_amended.2.1 ⟨[("x-a", ["1"])]⟩ "X-A" "x-a" "2" rfl,
   c6_headers_amended.2.2.1 ⟨[("h", ["a"])]⟩ ⟨[("h", ["b"])]⟩ "h" (by decide),
   c6_headers_amended.2.2.2 HttpHeaders.empty [("h", ["b"])] "h" (by decide) rfl⟩

/-- C9, counterexample: a default header value for a name the handler's own
response headers already set IS merged in — both the handler's `x-foo: a` and
the default `x-foo: b` are emitted on the wire (handler value first). -/
theorem c9_counterexample_default_value_emitted :
    (send_response_cycle (fun _ => 0) (fun _ => "") ⟨[("x-foo", ["b"])]⟩
        { status_code := 200, headers := some ⟨[("x-foo", ["a"])]⟩ }).2
      = .ok ⟨200, [("x-foo", "a"), ("x-foo", "b"), ("content-length", "0")], ""⟩ := rfl

/-- C9 (amended): for a response with a truthy headers table, the wire values
of every header name other than `content-length` are the handler's values
followed by the defaults' values — a default name absent from the response is
added, and for a name present in both the handler's values come first but the
default values are appended as additional header lines, not dropped. -/
theorem c9_defaults_appended_amended (fileSize : String → Nat)
    (fileContents : String → String) (d rh : HttpHeaders) (r : HttpResponse)
    (k : String)
    (hrh : r.headers = some rh) (hne : rh.len ≠ 0)
    (hnd : (keysOf d._headers).Nodup) (hnr : (keysOf rh._headers).Nodup)
    (hk : lowerStr k = k) (hkcl : k ≠ "content-length")
    (hst : isValidHTTPStatus r.status_code = true) :
    valuesAt k (wireHeaderLines (send_response_cycle fileSize fileContents d r).2) =
      (rh.get_list k).getD [] ++ (d.get_list k).getD [] := by
  have ht : pyTruthyHeaders (some rh) = true := by
    unfold pyTruthyHeaders
    exact bne_iff_ne.mpr hne
  have hle : rh.len ≤ (rh.merge d).len := len_foldExtend_ge d._headers rh._headers
  have hmne : (rh.merge d).len ≠ 0 := by omega
  unfold send_response_cycle
  rw [hrh, if_pos ht]
  show valuesAt k (wireHeaderLines (emitResponse fileSize fileContents
    (if (rh.merge d).len ≠ 0 then rh.merge d else HttpHeaders.empty) r).2) = _
  rw [if_pos hmne]
  unfold emitResponse
  rw [if_pos hst]
  show valuesAt k (HttpHeaders.items ⟨dictSet (lowerStr "content-length")
    [toString (responseContentLength fileSize r)]
    (foldExtend rh._headers d._headers)⟩) = _
  rw [show lowerStr "content-length" = "content-length" from rfl]
  have hndm : (keysOf (foldExtend rh._headers d._headers)).Nodup :=
    nodup_keys_foldExtend d._headers rh._headers hnr
  have hnds : (keysOf (dictSet "content-length"
      [toString (responseContentLength fileSize r)]
      (foldExtend rh._headers d._headers))).Nodup :=
    nodup_keys_dictSet _ _ _ hndm
  rw [valuesAt_items k _ hnds,
    dictGet_dictSet_ne k "content-length" _ _ hkcl,
    dictGet_foldExtend k d._headers rh._headers,
    esVals_eq_getD k d._headers hnd]
  unfold HttpHeaders.get_list
  rw [hk]

/-- C9, witness: the amended claim at the counterexample input — the wire
carries the handler's `x-foo` value and then the default's. -/
theorem c9_defaults_appended_amended_witness :
    valuesAt "x-foo" (wireHeaderLines (send_response_cycle (fun _ => 0) (fun _ => "")
        ⟨[("x-foo", ["b"])]⟩
        { status_code := 200, headers := some ⟨[("x-foo", ["a"])]⟩ }).2)
      = ["a"] ++ ["b"] :=
  c9_defaults_appended_amended (fun _ => 0) (fun _ => "") ⟨[("x-foo", ["b"])]⟩
    ⟨[("x-foo", ["a"])]⟩ { status_code := 200, headers := some ⟨[("x-foo", ["a"])]⟩ }
    "x-foo" rfl (by decide) (by decide) (by decide) rfl (by decide) rfl

/-- C7, witness: the unreachable-`None` conjunct applied to a concrete stream
that parses to a request. -/
theorem c7_empty_stream_is_failure_witness :
    ((some
      { stamp := 0, method := "GET", path := "/foo", query_params := [],
        version := "HTTP/1.1", headers := HttpHeaders.empty,
        body := none } : Option HttpRequest), ([] : List Char)).1.isSome = true :=
  c7_empty_stream_is_failure.2.2 "GET /foo HTTP/1.1\r\n\r\n".data
    (some
      { stamp := 0, method := "GET", path := "/foo", query_params := [],
        version := "HTTP/1.1", headers := HttpHeaders.empty, body := none }, [])
    (by rfl)

end SimpleHttp
